import Mathlib

/-!
Verification development for the gophish-tools repository.

The development shallowly embeds the two tools under src/tools:
  * gophish_import.py : load_landings, load_groups, build_campaigns
    (the create / conflict-delete / retry upsert protocol against the
    remote GoPhish server),
  * gophish_export.py : get_click_data, get_email_status, get_application,
    find_unique_target_clicks_count, write_campaign_summary,
    export_user_reports, get_campaign_data.

The remote GoPhish server is modelled as an explicit state: a list of
resources carrying a numeric id, a name and an opaque definition payload,
plus a counter for the next fresh id.  Creation fails with the exact
string "<Kind> name already in use" when a resource of the requested name
exists, mirroring the error message the tools string-match on.  Remote
calls are state-passing functions; the unbounded Python retry loops are
embedded with an explicit fuel parameter.
-/

namespace GophishTools

/-- One resource stored on the remote GoPhish server: remote id, name and
an opaque definition payload (type parameter). -/
structure SrvResource (π : Type) where
  id : Nat
  name : String
  payload : π
deriving DecidableEq, Repr

/-- Remote server state for one resource kind: stored resources plus the
next fresh remote id. -/
structure Srv (π : Type) where
  items : List (SrvResource π)
  nextId : Nat
deriving DecidableEq, Repr

/-- Whether a resource with the given name exists among items. -/
def srvNameInUse {π : Type} (items : List (SrvResource π)) (name : String) : Bool :=
  items.any (fun r => r.name == name)

/-- Remote create: fails with the exact message "<Kind> name already in
use" when the name exists, otherwise stores the definition under a fresh
id and returns that id (GoPhish returns the created object; the tools
only read its id). -/
def srvPost {π : Type} (kind name : String) (payload : π) (s : Srv π) :
    Except String (Nat × Srv π) :=
  if srvNameInUse s.items name then
    .error (kind ++ " name already in use")
  else
    .ok (s.nextId, ⟨s.items ++ [⟨s.nextId, name, payload⟩], s.nextId + 1⟩)

/-- Remote delete-by-id: removes every stored resource with that id. -/
def srvDelete {π : Type} (i : Nat) (s : Srv π) : Srv π :=
  ⟨s.items.filter (fun r => !(r.id == i)), s.nextId⟩

/-- The conflict-recovery pass shared by all four upsert loops and by
build_campaigns: walk a snapshot of the listed resources and delete, by
remote id, every one whose name equals the new name (the Python for-loop
over api.<kind>.get() with api.<kind>.delete(old.id) on a name match). -/
def deletePass {π : Type} (name : String) (olds : List (SrvResource π)) (s : Srv π) : Srv π :=
  olds.foldl (fun st old => if old.name == name then srvDelete old.id st else st) s

/-- Abstract remote API for one resource kind, over server state σ:
create the (fixed) new resource, list, delete by id. -/
structure ApiOps (σ π : Type) where
  post : σ → Except String (Nat × σ)
  get : σ → List (SrvResource π)
  delete : Nat → σ → σ

/-- Outcome of the upsert while-loop: success with the remote id, a
re-raised non-conflict error, or fuel exhaustion (the Python loop has no
bound; noFuel models a run longer than the given fuel). -/
inductive UpsertResult (σ : Type) where
  | ok : Nat → σ → UpsertResult σ
  | raised : String → σ → UpsertResult σ
  | noFuel : σ → UpsertResult σ
deriving DecidableEq

/-- The while-True upsert loop of load_landings / load_groups /
build_campaigns (templates, SMTP profiles): attempt creation; on an Error
whose message equals conflictMsg, list the existing resources, delete
every one whose name equals the new name, and retry; re-raise any other
error immediately. -/
def upsertLoop {σ π : Type} (conflictMsg name : String) (api : ApiOps σ π) :
    Nat → σ → UpsertResult σ
  | 0, s => .noFuel s
  | fuel + 1, s =>
    match api.post s with
    | .ok (i, s') => .ok i s'
    | .error msg =>
      if msg == conflictMsg then
        upsertLoop conflictMsg name api fuel
          ((api.get s).foldl
            (fun st old => if old.name == name then api.delete old.id st else st) s)
      else .raised msg s

/-- The honest server instance of the remote API for one kind. -/
def srvApi (kind name : String) {π : Type} (payload : π) : ApiOps (Srv π) π :=
  { post := srvPost kind name payload
    get := fun s => s.items
    delete := srvDelete }

/-- The upsert loop run against the honest server model. -/
def upsertSrv (kind name : String) {π : Type} (payload : π) (fuel : Nat) (s : Srv π) :
    UpsertResult (Srv π) :=
  upsertLoop (kind ++ " name already in use") name (srvApi kind name payload) fuel s

/-- A remote API whose create always fails with a fixed message, used to
exercise the non-conflict re-raise branch on a concrete input. -/
def constFailApi {π : Type} (msg : String) : ApiOps (Srv π) π :=
  { post := fun _ => .error msg
    get := fun s => s.items
    delete := srvDelete }

end GophishTools

namespace GophishTools

lemma deletePass_eq {π : Type} (name : String) (olds : List (SrvResource π))
    (items : List (SrvResource π)) (nid : Nat) :
    deletePass name olds ⟨items, nid⟩ =
      ⟨items.filter (fun r => olds.all (fun o => !(o.name == name) || !(r.id == o.id))), nid⟩ := by
  induction olds generalizing items with
  | nil => simp [deletePass]
  | cons o olds ih =>
    show deletePass name olds
        (if o.name == name then srvDelete o.id ⟨items, nid⟩ else ⟨items, nid⟩) = _
    by_cases h : o.name = name
    · have hb : (o.name == name) = true := by simpa using h
      rw [if_pos hb]
      show deletePass name olds ⟨items.filter (fun r => !(r.id == o.id)), nid⟩ = _
      rw [ih]
      rw [List.filter_filter]
      congr 1
      apply List.filter_congr
      intro r _
      simp [hb, List.all_cons, Bool.and_comm]
    · have hb : (o.name == name) = false := by simpa using h
      rw [if_neg (by simp [hb])]
      rw [ih]
      congr 1
      apply List.filter_congr
      intro r _
      simp [hb, h, List.all_cons]

lemma deletePass_self_nodup {π : Type} (name : String)
    (items : List (SrvResource π)) (nid : Nat)
    (h : (items.map (fun r => r.id)).Nodup) :
    deletePass name items ⟨items, nid⟩ =
      ⟨items.filter (fun r => !(r.name == name)), nid⟩ := by
  rw [deletePass_eq]
  congr 1
  apply List.filter_congr
  intro r hr
  by_cases hname : r.name = name
  · have hb : (r.name == name) = true := by simpa using hname
    have : ¬(items.all (fun o => !(o.name == name) || !(r.id == o.id)) = true) := by
      rw [List.all_eq_true]
      intro hall
      have := hall r hr
      simp [hb] at this
    rw [Bool.not_eq_true] at this
    rw [this, hb]
    rfl
  · have hb : (r.name == name) = false := by simpa using hname
    have : items.all (fun o => !(o.name == name) || !(r.id == o.id)) = true := by
      rw [List.all_eq_true]
      intro o ho
      by_cases hon : o.name = name
      · have : r.id ≠ o.id := by
          intro hid
          exact hname (by rw [List.inj_on_of_nodup_map h hr ho hid, hon])
        simp [this]
      · simp [hon]
    rw [this, hb]
    rfl

lemma srvNameInUse_filter_false {π : Type} (items : List (SrvResource π)) (name : String) :
    srvNameInUse (items.filter (fun r => !(r.name == name))) name = false := by
  rw [Bool.eq_false_iff]
  intro hc
  rw [srvNameInUse, List.any_eq_true] at hc
  obtain ⟨r, hr, hrn⟩ := hc
  rw [List.mem_filter] at hr
  have h1 : r.name = name := by simpa using hrn
  have h2 : ¬(r.name = name) := by simpa using hr.2
  exact h2 h1

lemma upsertSrv_conflict_step {π : Type} (kind name : String) (payload : π)
    (fuel : Nat) (s : Srv π) (h : srvNameInUse s.items name = true) :
    upsertSrv kind name payload (fuel + 1) s =
      upsertSrv kind name payload fuel (deletePass name s.items s) := by
  simp only [upsertSrv, upsertLoop, srvApi, srvPost, h, if_true, beq_self_eq_true]
  rfl

lemma upsertSrv_free_step {π : Type} (kind name : String) (payload : π)
    (fuel : Nat) (s : Srv π) (h : srvNameInUse s.items name = false) :
    upsertSrv kind name payload (fuel + 1) s =
      .ok s.nextId ⟨s.items ++ [⟨s.nextId, name, payload⟩], s.nextId + 1⟩ := by
  simp only [upsertSrv, upsertLoop, srvApi, srvPost, h, Bool.false_eq_true, if_false]

end GophishTools

namespace GophishTools

/-- C1: for every resource kind (Page, Group, Template, SMTP profile) the
upsert loop attempts remote creation; if creation fails with an Error
whose message is exactly "<Kind> name already in use" it lists the
existing remote resources of that kind, deletes every one whose name
equals the new name by its remote id, and retries creation (with the name
in use, two loop iterations end in a successful creation on a server from
which exactly the same-named resources were removed); an Error with any
other message is re-raised immediately, leaving the server state
untouched. -/
theorem upsert_conflict_recovery_and_reraise {π σ : Type}
    (kind name otherMsg : String) (payload : π)
    (items : List (SrvResource π)) (nid : Nat)
    (api : ApiOps σ π) (t : σ)
    (hids : (items.map (fun r => r.id)).Nodup)
    (hused : srvNameInUse items name = true)
    (hpost : api.post t = .error otherMsg)
    (hmsg : otherMsg ≠ kind ++ " name already in use") :
    upsertSrv kind name payload 2 ⟨items, nid⟩ =
      .ok nid ⟨items.filter (fun r => !(r.name == name)) ++ [⟨nid, name, payload⟩], nid + 1⟩ ∧
    ∀ fuel : Nat, upsertLoop (kind ++ " name already in use") name api (fuel + 1) t =
      .raised otherMsg t := by
  constructor
  · rw [show (2 : Nat) = 1 + 1 from rfl,
      upsertSrv_conflict_step kind name payload 1 ⟨items, nid⟩ hused]
    show upsertSrv kind name payload 1 (deletePass name items ⟨items, nid⟩) = _
    rw [deletePass_self_nodup name items nid hids]
    rw [show (1 : Nat) = 0 + 1 from rfl,
      upsertSrv_free_step kind name payload 0 _ (srvNameInUse_filter_false items name)]
  · intro fuel
    have hbf : (otherMsg == kind ++ " name already in use") = false := by
      simpa using hmsg
    simp only [upsertLoop, hpost, hbf, Bool.false_eq_true, if_false]

/-- Witness for C1 at concrete inputs: kind Page, a server holding one
page named P under remote id 1, and an api whose create fails with a
connection error. -/
theorem upsert_conflict_recovery_and_reraise_witness :
    ((([⟨1, "P", "old"⟩] : List (SrvResource String)).map (fun r => r.id)).Nodup ∧
      srvNameInUse ([⟨1, "P", "old"⟩] : List (SrvResource String)) "P" = true ∧
      (constFailApi (π := String) "connection refused").post ⟨[], 0⟩ =
        .error "connection refused" ∧
      "connection refused" ≠ "Page" ++ " name already in use") ∧
    (upsertSrv "Page" "P" "new" 2 ⟨[⟨1, "P", "old"⟩], 2⟩ =
      .ok 2 ⟨([⟨1, "P", "old"⟩] : List (SrvResource String)).filter
          (fun r => !(r.name == "P")) ++ [⟨2, "P", "new"⟩], 2 + 1⟩ ∧
     ∀ fuel : Nat, upsertLoop ("Page" ++ " name already in use") "P"
        (constFailApi (π := String) "connection refused") (fuel + 1) ⟨[], 0⟩ =
        .raised "connection refused" ⟨[], 0⟩) :=
  ⟨⟨by decide, by decide, rfl, by decide⟩,
    upsert_conflict_recovery_and_reraise "Page" "P" "connection refused" "new"
      [⟨1, "P", "old"⟩] 2 (constFailApi "connection refused") ⟨[], 0⟩
      (by decide) (by decide) rfl (by decide)⟩

end GophishTools

namespace GophishTools

/-- A target record as read from the assessment JSON (the tgt dict in
load_groups). -/
structure LocalTarget where
  first_name : String
  last_name : String
  email : String
  position : Option String
deriving DecidableEq, Repr

/-- The gophish User object as built by load_groups: position is only
assigned when the JSON value is truthy (neither null nor the empty
string). -/
structure PostedTarget where
  first_name : String
  last_name : String
  email : String
  position : Option String
deriving DecidableEq, Repr

/-- User construction of load_groups. -/
def postedTarget (t : LocalTarget) : PostedTarget :=
  { first_name := t.first_name
    last_name := t.last_name
    email := t.email
    position := match t.position with
      | none => none
      | some p => if p == "" then none else some p }

/-- Target list of the posted Group object. -/
def postedTargets (ts : List LocalTarget) : List PostedTarget :=
  ts.map postedTarget

/-- A group record of the assessment document; id is filled in by
load_groups from the remote creation result. -/
structure LocalGroup where
  name : String
  targets : List LocalTarget
  id : Option Nat
deriving DecidableEq, Repr

/-- The value load_groups returns.  The Python variable named groups is
first bound to the assessment list of group dicts, but the statement
groups = api.groups.get() inside the conflict handler REBINDS it to the
remote list; the function returns whatever the variable holds at the
end, so the result is one of two different shapes. -/
inductive GroupsReturn where
  | locals : List LocalGroup → GroupsReturn
  | remotes : List (SrvResource (List PostedTarget)) → GroupsReturn
deriving DecidableEq, Repr

/-- The while-True loop inside load_groups.  Besides the upsert protocol
it mirrors the rebinding groups = api.groups.get() in the conflict
branch: the second component carries the current value of that shadowed
variable (none while it still holds the assessment list). -/
def groupUpsertLoop (g : LocalGroup) :
    Nat → Srv (List PostedTarget) → Option (List (SrvResource (List PostedTarget))) →
    UpsertResult (Srv (List PostedTarget)) × Option (List (SrvResource (List PostedTarget)))
  | 0, s, v => (.noFuel s, v)
  | fuel + 1, s, v =>
    match srvPost "Group" g.name (postedTargets g.targets) s with
    | .ok (i, s') => (.ok i s', v)
    | .error msg =>
      if msg == "Group name already in use" then
        groupUpsertLoop g fuel (deletePass g.name s.items s) (some s.items)
      else (.raised msg s, v)

/-- The for-loop of load_groups over the assessment groups: acc is the
assessment list with remote ids filled in so far (the group dicts are
mutated in place in Python), v the current value of the shadowed groups
variable. -/
def loadGroupsGo (fuel : Nat) :
    List LocalGroup → List LocalGroup →
    Option (List (SrvResource (List PostedTarget))) → Srv (List PostedTarget) →
    Except String (GroupsReturn × Srv (List PostedTarget))
  | [], acc, v, s =>
    .ok (match v with
          | none => .locals acc
          | some r => .remotes r, s)
  | g :: rest, acc, v, s =>
    match groupUpsertLoop g fuel s v with
    | (.ok i s', v') => loadGroupsGo fuel rest (acc ++ [{ g with id := some i }]) v' s'
    | (.raised msg _, _) => .error msg
    | (.noFuel _, _) => .error "unbounded retry"

/-- load_groups of gophish_import.py: upsert every assessment group,
record each created remote id into the group record, and return the
final value of the (possibly rebound) groups variable. -/
def load_groups (groups : List LocalGroup) (s : Srv (List PostedTarget)) (fuel : Nat) :
    Except String (GroupsReturn × Srv (List PostedTarget)) :=
  loadGroupsGo fuel groups [] none s

/-- A landing-page record of the assessment document; id is filled in by
load_landings from the remote creation result. -/
structure LocalPage where
  name : String
  capture_credentials : Bool
  capture_passwords : Bool
  html : String
  redirect_url : Option String
  id : Option Nat
deriving DecidableEq, Repr

/-- The gophish Page object as built by load_landings: redirect_url is
only assigned when the JSON value is truthy. -/
structure PageDef where
  capture_credentials : Bool
  capture_passwords : Bool
  html : String
  redirect_url : Option String
deriving DecidableEq, Repr

/-- Page construction of load_landings. -/
def pageDefOf (p : LocalPage) : PageDef :=
  { capture_credentials := p.capture_credentials
    capture_passwords := p.capture_passwords
    html := p.html
    redirect_url := match p.redirect_url with
      | none => none
      | some u => if u == "" then none else some u }

/-- The for-loop of load_landings over the assessment pages; its conflict
handler uses the fresh variable old_pages, so no rebinding occurs and the
assessment list (with ids filled in) is returned. -/
def loadLandingsGo (fuel : Nat) :
    List LocalPage → List LocalPage → Srv PageDef →
    Except String (List LocalPage × Srv PageDef)
  | [], acc, s => .ok (acc, s)
  | p :: rest, acc, s =>
    match upsertSrv "Page" p.name (pageDefOf p) fuel s with
    | .ok i s' => loadLandingsGo fuel rest (acc ++ [{ p with id := some i }]) s'
    | .raised msg _ => .error msg
    | .noFuel _ => .error "unbounded retry"

/-- load_landings of gophish_import.py. -/
def load_landings (pages : List LocalPage) (s : Srv PageDef) (fuel : Nat) :
    Except String (List LocalPage × Srv PageDef) :=
  loadLandingsGo fuel pages [] s

end GophishTools

namespace GophishTools

/-- Concrete C2 scenario: one assessment group whose name already exists
remotely under id 1. -/
def tC2 : LocalTarget := ⟨"First", "Last", "first.last@example.com", none⟩

/-- The assessment group record for the C2 scenario. -/
def gC2 : LocalGroup := ⟨"RVXXX1-G1", [tC2], none⟩

/-- Remote group collection already holding a same-named group. -/
def groupsSrvC2 : Srv (List PostedTarget) := ⟨[⟨1, "RVXXX1-G1", []⟩], 2⟩

/-- The assessment page record for the C2 scenario. -/
def pC2 : LocalPage := ⟨"RVXXX1-P1", true, false, "<html></html>", none, none⟩

/-- Remote page collection already holding a same-named page. -/
def pagesSrvC2 : Srv PageDef := ⟨[⟨1, "RVXXX1-P1", pageDefOf pC2⟩], 2⟩

/-- C2 (code bug evidence): when a name-conflict retry occurs,
load_groups does capture the new remote id into the local group record,
but it returns the remote list snapshot taken by the conflict handler
(the rebound groups variable, still containing the stale pre-delete
remote object with the old id) instead of the assessment list of group
records augmented with remote ids; load_landings, whose handler does not
shadow its variable, returns the assessment page records with ids as
documented. -/
theorem load_groups_conflict_returns_remote_snapshot :
    load_groups [gC2] groupsSrvC2 3 =
      .ok (.remotes [⟨1, "RVXXX1-G1", []⟩], ⟨[⟨2, "RVXXX1-G1", postedTargets [tC2]⟩], 3⟩) ∧
    GroupsReturn.remotes [⟨1, "RVXXX1-G1", []⟩] ≠
      GroupsReturn.locals [{ gC2 with id := some 2 }] ∧
    load_landings [pC2] pagesSrvC2 3 =
      .ok ([{ pC2 with id := some 2 }], ⟨[⟨2, "RVXXX1-P1", pageDefOf pC2⟩], 3⟩) := by
  refine ⟨rfl, ?_, rfl⟩
  decide

end GophishTools

namespace GophishTools

/-- The pre-create pass of build_campaigns: list remote campaigns and
delete, by remote id, every one whose name equals the new campaign
name. -/
def deleteNamedCampaigns {π : Type} (name : String) (s : Srv π) : Srv π :=
  deletePass name s.items s

/-- Campaign step of build_campaigns: the proactive same-name deletion
pass followed by the campaign create request (api.campaigns.post inside
try, which re-raises any failure unchanged). -/
def createCampaignStep {π : Type} (name : String) (payload : π) (s : Srv π) :
    Except String (Nat × Srv π) :=
  srvPost "Campaign" name payload (deleteNamedCampaigns name s)

/-- C4: the campaign-create request of build_campaigns is issued on the
state reached after deleting every pre-existing same-named remote
campaign (deletion is proactive, by construction of createCampaignStep,
not a reaction to a conflict error); that state holds no same-named
campaign, so the create is never issued while one still exists, and it
succeeds. -/
theorem campaign_create_after_proactive_delete {π : Type}
    (name : String) (payload : π) (items : List (SrvResource π)) (nid : Nat)
    (hids : (items.map (fun r => r.id)).Nodup) :
    (deleteNamedCampaigns name ⟨items, nid⟩).items =
      items.filter (fun r => !(r.name == name)) ∧
    srvNameInUse (deleteNamedCampaigns name ⟨items, nid⟩).items name = false ∧
    createCampaignStep name payload ⟨items, nid⟩ =
      .ok (nid, ⟨items.filter (fun r => !(r.name == name)) ++ [⟨nid, name, payload⟩],
        nid + 1⟩) := by
  have hd : deleteNamedCampaigns name ⟨items, nid⟩ =
      ⟨items.filter (fun r => !(r.name == name)), nid⟩ := by
    unfold deleteNamedCampaigns
    exact deletePass_self_nodup name items nid hids
  refine ⟨by rw [hd], by rw [hd]; exact srvNameInUse_filter_false items name, ?_⟩
  unfold createCampaignStep
  rw [hd]
  simp only [srvPost, srvNameInUse_filter_false items name, Bool.false_eq_true, if_false]

/-- Witness for C4 at a concrete input: one pre-existing remote campaign
with the same name under id 7. -/
theorem campaign_create_after_proactive_delete_witness :
    (([⟨7, "RVXXX1-C1_level-1", "c-old"⟩] : List (SrvResource String)).map
      (fun r => r.id)).Nodup ∧
    ((deleteNamedCampaigns "RVXXX1-C1_level-1"
        ⟨[⟨7, "RVXXX1-C1_level-1", "c-old"⟩], 9⟩).items =
      ([⟨7, "RVXXX1-C1_level-1", "c-old"⟩] : List (SrvResource String)).filter
        (fun r => !(r.name == "RVXXX1-C1_level-1")) ∧
    srvNameInUse (deleteNamedCampaigns "RVXXX1-C1_level-1"
        ⟨[⟨7, "RVXXX1-C1_level-1", "c-old"⟩], 9⟩).items "RVXXX1-C1_level-1" = false ∧
    createCampaignStep "RVXXX1-C1_level-1" "c-new"
        ⟨[⟨7, "RVXXX1-C1_level-1", "c-old"⟩], 9⟩ =
      .ok (9, ⟨([⟨7, "RVXXX1-C1_level-1", "c-old"⟩] : List (SrvResource String)).filter
          (fun r => !(r.name == "RVXXX1-C1_level-1")) ++
          [⟨9, "RVXXX1-C1_level-1", "c-new"⟩], 9 + 1⟩)) :=
  ⟨by decide,
    campaign_create_after_proactive_delete "RVXXX1-C1_level-1" "c-new"
      [⟨7, "RVXXX1-C1_level-1", "c-old"⟩] 9 (by decide)⟩

end GophishTools

namespace GophishTools

/-- Result of the platform lookup on a user-agent string.  Modelled from
the interface of the httpagentparser library (outside this repository):
detect(ua) always carries a platform entry whose name and version are
None when nothing could be detected. -/
structure PlatformInfo where
  name : Option String
  version : Option String
deriving DecidableEq, Repr

/-- A JSON value stored in the emitted application dict: a string or
null (Python None). -/
inductive JVal where
  | s : String → JVal
  | null : JVal
deriving DecidableEq, Repr

/-- Python None maps to null, a detected string to itself. -/
def optJ : Option String → JVal
  | some v => .s v
  | none => .null

/-- One raw timeline event as consumed by get_click_data and
get_email_status: message tag, target email, timestamp string, and the
browser details (network address and user-agent string). -/
structure RawEvent where
  message : String
  email : String
  time : String
  address : String
  userAgent : String
deriving DecidableEq, Repr

/-- get_application of gophish_export.py: a dict with external_ip and
the best-effort platform name/version parsed from the user-agent.  The
name and version keys are always assigned (null when the library
detected nothing). -/
def get_application (detect : String → PlatformInfo) (e : RawEvent) :
    List (String × JVal) :=
  [("external_ip", .s e.address),
   ("name", optJ (detect e.userAgent).name),
   ("version", optJ (detect e.userAgent).version)]

/-- One emitted click record. -/
structure ClickOut where
  user : String
  source_ip : String
  time : String
  application : List (String × JVal)
deriving DecidableEq, Repr

/-- The click dict built for one Clicked Link event: the anonymized hex
digest of the target email (the sha256 digest is abstracted as the
function sha, applied identically wherever the source calls
hashlib.sha256(...).hexdigest()), the browser address, the raw timestamp
unchanged, and the application details. -/
def mkClick (sha : String → String) (detect : String → PlatformInfo)
    (e : RawEvent) : ClickOut :=
  ⟨sha e.email, e.address, e.time, get_application detect e⟩

/-- get_click_data of gophish_export.py: walk the timeline in order and
append a click record for every event whose message is exactly
Clicked Link. -/
def get_click_data (sha : String → String) (detect : String → PlatformInfo)
    (events : List RawEvent) : List ClickOut :=
  events.foldl (fun clicks e =>
    if e.message == "Clicked Link" then clicks ++ [mkClick sha detect e] else clicks) []

/-- A recorded send-status timestamp: raw keeps the timestamp string of
the event unchanged; seconds marks the value of the failure path, where
the string is truncated at the first dot and parsed into a datetime, so
sub-second precision is discarded. -/
inductive TimeVal where
  | raw : String → TimeVal
  | seconds : String → TimeVal
deriving DecidableEq, Repr

/-- The characters before the first dot. -/
def takeUntilDot : List Char → List Char
  | [] => []
  | c :: cs => if c = '.' then [] else c :: takeUntilDot cs

/-- Python str.split on a dot, element 0: everything before the first
dot (the whole string when no dot occurs). -/
def truncSeconds (t : String) : String := String.mk (takeUntilDot t.data)

/-- A datetime value as produced by strptime with the format string
%Y-%m-%dT%H:%M:%S. -/
structure DT where
  year : Nat
  month : Nat
  day : Nat
  hour : Nat
  minute : Nat
  second : Nat
deriving DecidableEq, Repr

/-- Comparison key: lexicographic over the six fields (every field below
the year is under 100, so Python datetime comparison coincides with
comparison of these keys). -/
def dtKey (d : DT) : Nat :=
  ((((d.year * 100 + d.month) * 100 + d.day) * 100 + d.hour) * 100 + d.minute) * 100
    + d.second

/-- Decimal value of a digit character. -/
def digitVal (c : Char) : Nat := c.toNat - 48

/-- Whether a character is a decimal digit. -/
def isDigitChar (c : Char) : Bool := decide (48 ≤ c.toNat) && decide (c.toNat ≤ 57)

/-- datetime.strptime with format %Y-%m-%dT%H:%M:%S, modelled on
zero-padded timestamps (4-digit year, 2-digit fields, with the field
ranges strptime enforces; exact per-month day validation is elided).
none models the ValueError raised on non-matching input. -/
def parseDT (s : String) : Option DT :=
  match s.data with
  | [y1, y2, y3, y4, a1, m1, m2, a2, d1, d2, a3, h1, h2, a4, n1, n2, a5, c1, c2] =>
    if (isDigitChar y1 && isDigitChar y2 && isDigitChar y3 && isDigitChar y4 &&
        isDigitChar m1 && isDigitChar m2 && isDigitChar d1 && isDigitChar d2 &&
        isDigitChar h1 && isDigitChar h2 && isDigitChar n1 && isDigitChar n2 &&
        isDigitChar c1 && isDigitChar c2 &&
        decide (a1.toNat = 45) && decide (a2.toNat = 45) && decide (a3.toNat = 84) &&
        decide (a4.toNat = 58) && decide (a5.toNat = 58)) then
      let mo := digitVal m1 * 10 + digitVal m2
      let dy := digitVal d1 * 10 + digitVal d2
      let hr := digitVal h1 * 10 + digitVal h2
      let mi := digitVal n1 * 10 + digitVal n2
      let sc := digitVal c1 * 10 + digitVal c2
      if 1 ≤ mo ∧ mo ≤ 12 ∧ 1 ≤ dy ∧ dy ≤ 31 ∧ hr ≤ 23 ∧ mi ≤ 59 ∧ sc ≤ 59 then
        some ⟨digitVal y1 * 1000 + digitVal y2 * 100 + digitVal y3 * 10 + digitVal y4,
              mo, dy, hr, mi, sc⟩
      else none
    else none
  | _ => none

/-- One emitted send-status record. -/
structure StatusOut where
  user : String
  time : TimeVal
  status : String
deriving DecidableEq, Repr

/-- The email dict built by get_email_status for one event: SUCCESS with
the raw timestamp for Email Sent; for Error Sending Email the timestamp
is truncated at the first dot and parsed by strptime — a truncated
string that does not match the format raises ValueError (the error
case), otherwise the Failed record carries the truncated whole-seconds
timestamp (whose successful parse is the recorded datetime object); and
nothing for every other message (the dict stays empty and is not
appended). -/
def emailRecOf (sha : String → String) (e : RawEvent) :
    Except String (Option StatusOut) :=
  if e.message == "Email Sent" then
    .ok (some ⟨sha e.email, .raw e.time, "SUCCESS"⟩)
  else if e.message == "Error Sending Email" then
    match parseDT (truncSeconds e.time) with
    | some _ => .ok (some ⟨sha e.email, .seconds (truncSeconds e.time), "Failed"⟩)
    | none => .error "ValueError"
  else .ok none

/-- The timeline loop of get_email_status: append each non-empty email
dict in order; a ValueError escaping from the failure branch aborts
the whole function, discarding all output built so far. -/
def getEmailStatusGo (sha : String → String) :
    List RawEvent → List StatusOut → Except String (List StatusOut)
  | [], acc => .ok acc
  | e :: es, acc =>
    match emailRecOf sha e with
    | .error msg => .error msg
    | .ok none => getEmailStatusGo sha es acc
    | .ok (some r) => getEmailStatusGo sha es (acc ++ [r])

/-- get_email_status of gophish_export.py: walk the timeline in order
and append the non-empty email dicts; the function raises (and emits
nothing) when the truncated timestamp of an Error Sending Email event
does not parse. -/
def get_email_status (sha : String → String) (events : List RawEvent) :
    Except String (List StatusOut) :=
  getEmailStatusGo sha events []

/-- The record emitted for an event carrying one of the two reported
send messages. -/
def statusRecOf (sha : String → String) (e : RawEvent) : StatusOut :=
  if e.message == "Email Sent" then ⟨sha e.email, .raw e.time, "SUCCESS"⟩
  else ⟨sha e.email, .seconds (truncSeconds e.time), "Failed"⟩

lemma foldl_append_filter {α β : Type} (p : α → Bool) (f : α → β)
    (l : List α) (acc : List β) :
    l.foldl (fun acc e => if p e then acc ++ [f e] else acc) acc =
      acc ++ (l.filter p).map f := by
  induction l generalizing acc with
  | nil => simp
  | cons e l ih =>
    by_cases h : p e
    · simp [h, ih, List.filter_cons, List.append_assoc]
    · simp [h, ih, List.filter_cons]

lemma get_click_data_eq (sha : String → String) (detect : String → PlatformInfo)
    (events : List RawEvent) :
    get_click_data sha detect events =
      (events.filter (fun e => e.message == "Clicked Link")).map (mkClick sha detect) := by
  unfold get_click_data
  rw [foldl_append_filter]
  simp

lemma getEmailStatusGo_ok (sha : String → String) (events : List RawEvent)
    (acc : List StatusOut)
    (h : ∀ e ∈ events, e.message = "Error Sending Email" →
      (parseDT (truncSeconds e.time)).isSome) :
    getEmailStatusGo sha events acc =
      .ok (acc ++ (events.filter (fun e =>
        e.message == "Email Sent" || e.message == "Error Sending Email")).map
        (statusRecOf sha)) := by
  induction events generalizing acc with
  | nil => simp [getEmailStatusGo]
  | cons e es ih =>
    have hrest : ∀ x ∈ es, x.message = "Error Sending Email" →
        (parseDT (truncSeconds x.time)).isSome :=
      fun x hx => h x (List.mem_cons_of_mem _ hx)
    by_cases h1 : e.message = "Email Sent"
    · have hb1 : (e.message == "Email Sent") = true := by simpa using h1
      rw [show getEmailStatusGo sha (e :: es) acc =
            getEmailStatusGo sha es (acc ++ [⟨sha e.email, .raw e.time, "SUCCESS"⟩])
          from by simp [getEmailStatusGo, emailRecOf, hb1]]
      rw [ih _ hrest]
      simp [List.filter_cons, statusRecOf, hb1, List.append_assoc]
    · have hb1 : (e.message == "Email Sent") = false := by simpa using h1
      by_cases h2 : e.message = "Error Sending Email"
      · have hb2 : (e.message == "Error Sending Email") = true := by simpa using h2
        obtain ⟨d, hd⟩ := Option.isSome_iff_exists.mp (h e (by simp) h2)
        rw [show getEmailStatusGo sha (e :: es) acc =
              getEmailStatusGo sha es
                (acc ++ [⟨sha e.email, .seconds (truncSeconds e.time), "Failed"⟩])
            from by simp [getEmailStatusGo, emailRecOf, hb1, hb2, hd]]
        rw [ih _ hrest]
        simp [List.filter_cons, statusRecOf, hb1, hb2, List.append_assoc]
      · have hb2 : (e.message == "Error Sending Email") = false := by simpa using h2
        rw [show getEmailStatusGo sha (e :: es) acc = getEmailStatusGo sha es acc
            from by simp [getEmailStatusGo, emailRecOf, hb1, hb2]]
        rw [ih _ hrest]
        simp [List.filter_cons, hb1, hb2]

lemma get_email_status_ok (sha : String → String) (events : List RawEvent)
    (h : ∀ e ∈ events, e.message = "Error Sending Email" →
      (parseDT (truncSeconds e.time)).isSome) :
    get_email_status sha events =
      .ok ((events.filter (fun e =>
        e.message == "Email Sent" || e.message == "Error Sending Email")).map
        (statusRecOf sha)) := by
  unfold get_email_status
  rw [getEmailStatusGo_ok sha events [] h]
  simp

end GophishTools

namespace GophishTools

/-- C3: on every timeline whose Error Sending Email timestamps parse
after dot-truncation (otherwise get_email_status raises the ValueError
of strptime and emits nothing at all), the export emits a click record
for an event iff its message is exactly Clicked Link, a SUCCESS
send-status record iff Email Sent, and a Failed send-status record iff
Error Sending Email; any other message produces no output; every
emitted record carries the anonymized digest of the target email (the
single function sha, so the same email yields the same identifier in
click and send-status output); and the output order is the input
timeline order (both outputs are literally the order-preserving filter
of the input followed by a map). -/
theorem timeline_classification (sha : String → String)
    (detect : String → PlatformInfo) (events : List RawEvent)
    (h : ∀ e ∈ events, e.message = "Error Sending Email" →
      (parseDT (truncSeconds e.time)).isSome) :
    get_click_data sha detect events =
      (events.filter (fun e => e.message == "Clicked Link")).map (mkClick sha detect) ∧
    get_email_status sha events =
      .ok ((events.filter (fun e =>
        e.message == "Email Sent" || e.message == "Error Sending Email")).map
        (statusRecOf sha)) ∧
    (∀ e : RawEvent, (mkClick sha detect e).user = sha e.email ∧
      (statusRecOf sha e).user = sha e.email ∧
      (e.message = "Email Sent" → (statusRecOf sha e).status = "SUCCESS") ∧
      (e.message = "Error Sending Email" → (statusRecOf sha e).status = "Failed")) := by
  refine ⟨get_click_data_eq sha detect events, get_email_status_ok sha events h, ?_⟩
  intro e
  refine ⟨rfl, ?_, ?_, ?_⟩
  · cases h : e.message == "Email Sent" <;> simp [statusRecOf, h]
  · intro h
    have hb : (e.message == "Email Sent") = true := by simpa using h
    simp [statusRecOf, hb]
  · intro h
    have hb : (e.message == "Email Sent") = false := by rw [h]; decide
    simp [statusRecOf, hb]

/-- A concrete stand-in for the anonymizing digest. -/
def sampleSha : String → String := fun s => "digest-" ++ s

/-- A concrete stand-in for the user-agent detection. -/
def sampleDetect : String → PlatformInfo := fun _ => ⟨some "Windows", some "10"⟩

/-- A sample timeline with one event of each reported message, a
parseable failure timestamp, and one ignored message. -/
def eventsC3 : List RawEvent :=
  [⟨"Email Sent", "a@example.com", "2021-03-04T05:06:07.123", "203.0.113.9", "agent"⟩,
   ⟨"Clicked Link", "a@example.com", "2021-03-04T05:07:07.456", "203.0.113.9", "agent"⟩,
   ⟨"Error Sending Email", "b@example.com", "2021-03-04T05:08:07.789", "", ""⟩,
   ⟨"Campaign Created", "", "2021-03-04T05:00:00", "", ""⟩]

/-- Witness for C3 at concrete inputs. -/
theorem timeline_classification_witness :
    (∀ e ∈ eventsC3, e.message = "Error Sending Email" →
      (parseDT (truncSeconds e.time)).isSome) ∧
    (get_click_data sampleSha sampleDetect eventsC3 =
      (eventsC3.filter (fun e => e.message == "Clicked Link")).map
        (mkClick sampleSha sampleDetect) ∧
    get_email_status sampleSha eventsC3 =
      .ok ((eventsC3.filter (fun e =>
        e.message == "Email Sent" || e.message == "Error Sending Email")).map
        (statusRecOf sampleSha)) ∧
    (∀ e : RawEvent, (mkClick sampleSha sampleDetect e).user = sampleSha e.email ∧
      (statusRecOf sampleSha e).user = sampleSha e.email ∧
      (e.message = "Email Sent" → (statusRecOf sampleSha e).status = "SUCCESS") ∧
      (e.message = "Error Sending Email" →
        (statusRecOf sampleSha e).status = "Failed"))) :=
  ⟨by decide, timeline_classification sampleSha sampleDetect eventsC3 (by decide)⟩

lemma failed_times_eq (sha : String → String) (events : List RawEvent) :
    (((events.filter (fun e =>
        e.message == "Email Sent" || e.message == "Error Sending Email")).map
        (statusRecOf sha)).filter (fun r => r.status == "Failed")).map
        (fun r => r.time) =
      (events.filter (fun e => e.message == "Error Sending Email")).map
        (fun e => TimeVal.seconds (truncSeconds e.time)) := by
  induction events with
  | nil => rfl
  | cons e es ih =>
    by_cases h1 : e.message = "Email Sent"
    · have hb1 : (e.message == "Email Sent") = true := by simpa using h1
      have hb2 : (e.message == "Error Sending Email") = false := by rw [h1]; decide
      simpa [List.filter_cons, statusRecOf, hb1, hb2] using ih
    · have hb1 : (e.message == "Email Sent") = false := by simpa using h1
      by_cases h2 : e.message = "Error Sending Email"
      · have hb2 : (e.message == "Error Sending Email") = true := by simpa using h2
        simpa [List.filter_cons, statusRecOf, hb1, hb2] using ih
      · have hb2 : (e.message == "Error Sending Email") = false := by simpa using h2
        simpa [List.filter_cons, hb1, hb2] using ih

lemma success_times_eq (sha : String → String) (events : List RawEvent) :
    (((events.filter (fun e =>
        e.message == "Email Sent" || e.message == "Error Sending Email")).map
        (statusRecOf sha)).filter (fun r => r.status == "SUCCESS")).map
        (fun r => r.time) =
      (events.filter (fun e => e.message == "Email Sent")).map
        (fun e => TimeVal.raw e.time) := by
  induction events with
  | nil => rfl
  | cons e es ih =>
    by_cases h1 : e.message = "Email Sent"
    · have hb1 : (e.message == "Email Sent") = true := by simpa using h1
      simpa [List.filter_cons, statusRecOf, hb1] using ih
    · have hb1 : (e.message == "Email Sent") = false := by simpa using h1
      by_cases h2 : e.message = "Error Sending Email"
      · have hb2 : (e.message == "Error Sending Email") = true := by simpa using h2
        simpa [List.filter_cons, statusRecOf, hb1, hb2] using ih
      · have hb2 : (e.message == "Error Sending Email") = false := by simpa using h2
        simpa [List.filter_cons, hb1, hb2] using ih

/-- C6: on every timeline whose Error Sending Email timestamps parse
after dot-truncation (otherwise get_email_status raises the ValueError
of strptime and records nothing), the send-status list is emitted and
every Failed record in it carries the event timestamp truncated to
whole seconds (everything before the first dot), while every SUCCESS
record and every click record carries the raw event timestamp unchanged
— the truncation happens in the send-failure path only. -/
theorem failure_timestamp_truncation (sha : String → String)
    (detect : String → PlatformInfo) (events : List RawEvent)
    (h : ∀ e ∈ events, e.message = "Error Sending Email" →
      (parseDT (truncSeconds e.time)).isSome) :
    ∃ status : List StatusOut, get_email_status sha events = .ok status ∧
      (status.filter (fun r => r.status == "Failed")).map (fun r => r.time) =
        (events.filter (fun e => e.message == "Error Sending Email")).map
          (fun e => TimeVal.seconds (truncSeconds e.time)) ∧
      (status.filter (fun r => r.status == "SUCCESS")).map (fun r => r.time) =
        (events.filter (fun e => e.message == "Email Sent")).map
          (fun e => TimeVal.raw e.time) ∧
      (get_click_data sha detect events).map (fun c => c.time) =
        (events.filter (fun e => e.message == "Clicked Link")).map (fun e => e.time) := by
  refine ⟨_, get_email_status_ok sha events h,
    failed_times_eq sha events, success_times_eq sha events, ?_⟩
  rw [get_click_data_eq, List.map_map]
  exact List.map_congr_left (fun e _ => rfl)

/-- A sample timeline with a success, a failure with sub-second
precision, and a click carrying sub-second precision. -/
def eventsC6 : List RawEvent :=
  [⟨"Email Sent", "c@example.com", "2022-11-30T10:20:30.500", "203.0.113.4", "agent"⟩,
   ⟨"Error Sending Email", "d@example.com", "2022-11-30T10:21:30.750", "", ""⟩,
   ⟨"Clicked Link", "c@example.com", "2022-11-30T10:22:30.250", "203.0.113.4", "agent"⟩]

/-- Witness for C6 at concrete inputs. -/
theorem failure_timestamp_truncation_witness :
    (∀ e ∈ eventsC6, e.message = "Error Sending Email" →
      (parseDT (truncSeconds e.time)).isSome) ∧
    (∃ status : List StatusOut, get_email_status sampleSha eventsC6 = .ok status ∧
      (status.filter (fun r => r.status == "Failed")).map (fun r => r.time) =
        (eventsC6.filter (fun e => e.message == "Error Sending Email")).map
          (fun e => TimeVal.seconds (truncSeconds e.time)) ∧
      (status.filter (fun r => r.status == "SUCCESS")).map (fun r => r.time) =
        (eventsC6.filter (fun e => e.message == "Email Sent")).map
          (fun e => TimeVal.raw e.time) ∧
      (get_click_data sampleSha sampleDetect eventsC6).map (fun c => c.time) =
        (eventsC6.filter (fun e => e.message == "Clicked Link")).map (fun e => e.time)) :=
  ⟨by decide, failure_timestamp_truncation sampleSha sampleDetect eventsC6 (by decide)⟩

end GophishTools

namespace GophishTools

/-- A detection function that finds no platform. -/
def detectNoneC7 : String → PlatformInfo := fun _ => ⟨none, none⟩

/-- A click event with an unparseable user-agent string. -/
def evC7 : RawEvent :=
  ⟨"Clicked Link", "user@example.com", "2020-01-01T00:00:00", "203.0.113.7",
    "unparseable-agent"⟩

/-- C7 counterexample: when the user-agent detection yields no platform,
get_application still assigns the name and version keys (with null
values); the click record does not omit the platform fields. -/
theorem click_platform_fields_present_counterexample :
    ¬(List.lookup "name" (get_application detectNoneC7 evC7) = none) ∧
    (get_application detectNoneC7 evC7).map (fun p => p.1) =
      ["external_ip", "name", "version"] ∧
    List.lookup "name" (get_application detectNoneC7 evC7) = some JVal.null ∧
    List.lookup "version" (get_application detectNoneC7 evC7) = some JVal.null := by
  refine ⟨by decide, rfl, rfl, rfl⟩

/-- C7 amended: platform name and version are derived best-effort from
the user-agent string; when detection fails the click record carries the
platform fields with a null value (rather than omitting them) and no
error is raised — get_application is total and always also records the
browser address under external_ip. -/
theorem click_platform_fields_null_on_failure (detect : String → PlatformInfo)
    (e : RawEvent) (hn : (detect e.userAgent).name = none)
    (hv : (detect e.userAgent).version = none) :
    List.lookup "name" (get_application detect e) = some JVal.null ∧
    List.lookup "version" (get_application detect e) = some JVal.null ∧
    List.lookup "external_ip" (get_application detect e) = some (JVal.s e.address) := by
  unfold get_application
  rw [hn, hv]
  refine ⟨?_, ?_, ?_⟩ <;> simp [List.lookup, optJ]

/-- Witness for the amended C7 at a concrete input. -/
theorem click_platform_fields_null_on_failure_witness :
    ((detectNoneC7 evC7.userAgent).name = none ∧
      (detectNoneC7 evC7.userAgent).version = none) ∧
    (List.lookup "name" (get_application detectNoneC7 evC7) = some JVal.null ∧
      List.lookup "version" (get_application detectNoneC7 evC7) = some JVal.null ∧
      List.lookup "external_ip" (get_application detectNoneC7 evC7) =
        some (JVal.s evC7.address)) :=
  ⟨⟨rfl, rfl⟩, click_platform_fields_null_on_failure detectNoneC7 evC7 rfl rfl⟩

/-- find_unique_target_clicks_count of gophish_export.py: cardinality of
the set of user ids occurring in a click list. -/
def find_unique_target_clicks_count (clicks : List ClickOut) : Nat :=
  ((clicks.map (fun c => c.user)).dedup).length

/-- Click percentage computed by write_campaign_summary: unique clicks
divided by the server-reported total when that total is positive, 0.0
otherwise.  Python float division is modelled by exact rationals. -/
def percentClicks (unique total : Nat) : ℚ :=
  if 0 < total then (unique : ℚ) / (total : ℚ) else 0

/-- Two clicks by distinct users. -/
def clicksC5 : List ClickOut :=
  [⟨"u1", "198.51.100.1", "2020-01-01T00:00:00", []⟩,
   ⟨"u2", "198.51.100.2", "2020-01-01T00:00:01", []⟩]

/-- C5 counterexample: two distinct clickers in the timeline against a
server-reported total-clicked count of 1 give a click percentage of 2,
outside [0, 1]; the interval bound does not hold for every unique-click
count, only when it does not exceed the reported total. -/
theorem percent_clicks_counterexample :
    find_unique_target_clicks_count clicksC5 = 2 ∧
    percentClicks (find_unique_target_clicks_count clicksC5) 1 = 2 ∧
    ¬(percentClicks (find_unique_target_clicks_count clicksC5) 1 ≤ 1) := by
  have h : find_unique_target_clicks_count clicksC5 = 2 := by decide
  refine ⟨h, ?_, ?_⟩
  · rw [h]
    norm_num [percentClicks]
  · rw [h]
    norm_num [percentClicks]

/-- C5 amended: the click percentage equals unique divided by total when
the server-reported total is positive and is exactly 0 when the total is
0 (no division by zero is performed); it is always nonnegative, and it
lies in [0, 1] whenever the unique-click count does not exceed the
reported total. -/
theorem percent_clicks_bounds (u total : Nat) (h : u ≤ total) :
    (total = 0 → percentClicks u total = 0) ∧
    (0 < total → percentClicks u total = (u : ℚ) / (total : ℚ)) ∧
    0 ≤ percentClicks u total ∧ percentClicks u total ≤ 1 := by
  refine ⟨?_, ?_, ?_, ?_⟩
  · intro h0
    simp [percentClicks, h0]
  · intro hp
    simp [percentClicks, hp]
  · by_cases hp : 0 < total
    · rw [percentClicks, if_pos hp]
      positivity
    · rw [percentClicks, if_neg hp]
  · by_cases hp : 0 < total
    · rw [percentClicks, if_pos hp]
      rw [div_le_one (by exact_mod_cast hp)]
      exact_mod_cast h
    · rw [percentClicks, if_neg hp]
      norm_num

/-- Witness for the amended C5 at a concrete input. -/
theorem percent_clicks_bounds_witness :
    2 ≤ 10 ∧
    ((10 = 0 → percentClicks 2 10 = 0) ∧
      (0 < 10 → percentClicks 2 10 = (2 : ℚ) / (10 : ℚ)) ∧
      0 ≤ percentClicks 2 10 ∧ percentClicks 2 10 ≤ 1) :=
  ⟨by decide, percent_clicks_bounds 2 10 (by decide)⟩

end GophishTools

namespace GophishTools

/-- Whether the campaign name ends with the given suffix, compared
character by character. -/
def levelSufOk (name suf : String) : Bool :=
  List.isSuffixOf suf.data name.data

/-- Whether the part of the name before the 8-character level suffix is
free of newlines: the regex dot of write_campaign_summary does not match
a newline, so re.fullmatch requires this of the leading dot-star. -/
def noNewlineBeforeSuffix (name : String) : Bool :=
  !((name.data.take (name.data.length - 8)).contains '\n')

/-- Whether a campaign name is accepted by the compiled regex of
write_campaign_summary for one particular level suffix: re.fullmatch of
the pattern dot-star underscore level-[1-6] dollar succeeds exactly when
the name ends with that 8-character suffix and the part before it
contains no newline. -/
def levelOk (name suf : String) : Bool :=
  levelSufOk name suf && noNewlineBeforeSuffix name

/-- The level captured by the regex of write_campaign_summary, none when
fullmatch fails (the campaign is then skipped with a warning). -/
def parseLevelCode (name : String) : Option String :=
  if levelOk name "_level-1" then some "level-1"
  else if levelOk name "_level-2" then some "level-2"
  else if levelOk name "_level-3" then some "level-3"
  else if levelOk name "_level-4" then some "level-4"
  else if levelOk name "_level-5" then some "level-5"
  else if levelOk name "_level-6" then some "level-6"
  else none

/-- The pattern of the claim: the name ends with an end-anchored
_level-N suffix with N in 1..6 (case-sensitive). -/
def specLevelMatch (name : String) : Bool :=
  levelSufOk name "_level-1" || levelSufOk name "_level-2" || levelSufOk name "_level-3" ||
  levelSufOk name "_level-4" || levelSufOk name "_level-5" || levelSufOk name "_level-6"

/-- The per-level summary entry written by write_campaign_summary. -/
structure SummaryEntry where
  subject : String
  sender : String
  start_date : String
  end_date : String
  redirect : String
  clicks : Nat
  unique_clicks : Nat
  percent_clicks : ℚ
deriving DecidableEq

/-- The per-campaign data consumed by one iteration of the summary loop:
campaign fields read from the remote object, the click list from
get_click_data and the server-reported total-clicked count. -/
structure SummaryCampaignInput where
  name : String
  subject : String
  from_address : String
  launch_date : String
  completed_date : String
  url : String
  clicks : List ClickOut
  total_clicks : Nat
deriving DecidableEq

/-- The entry assigned into campaign_data[level] for one campaign. -/
def summaryEntryOf (c : SummaryCampaignInput) : SummaryEntry :=
  { subject := c.subject
    sender := c.from_address
    start_date := c.launch_date
    end_date := c.completed_date
    redirect := c.url
    clicks := c.total_clicks
    unique_clicks := find_unique_target_clicks_count c.clicks
    percent_clicks := percentClicks (find_unique_target_clicks_count c.clicks) c.total_clicks }

/-- Assignment into the level-keyed campaign_data mapping (the template
loaded from campaign_data.json holds one entry per level). -/
def setAssoc (m : List (String × SummaryEntry)) (k : String) (v : SummaryEntry) :
    List (String × SummaryEntry) :=
  m.map (fun p => if p.1 == k then (p.1, v) else p)

/-- The campaign loop of write_campaign_summary: campaigns whose name the
regex rejects are skipped (after a warning) with continue; matching ones
overwrite the level-keyed entry. -/
def summaryFold (campaigns : List SummaryCampaignInput)
    (init : List (String × SummaryEntry)) : List (String × SummaryEntry) :=
  campaigns.foldl (fun data c =>
    match parseLevelCode c.name with
    | some level => setAssoc data level (summaryEntryOf c)
    | none => data) init

lemma parseLevelCode_specLevelMatch {name : String} {lv : String}
    (h : parseLevelCode name = some lv) : specLevelMatch name = true := by
  unfold parseLevelCode at h
  unfold specLevelMatch
  split_ifs at h with h1 h2 h3 h4 h5 h6 <;>
    simp_all [levelOk, Bool.and_eq_true]

lemma specLevelMatch_false_parseLevelCode {name : String}
    (h : specLevelMatch name = false) : parseLevelCode name = none := by
  cases hp : parseLevelCode name with
  | none => rfl
  | some lv => rw [parseLevelCode_specLevelMatch hp] at h; cases h

lemma summaryFold_filter (campaigns : List SummaryCampaignInput)
    (init : List (String × SummaryEntry)) :
    summaryFold campaigns init =
      summaryFold (campaigns.filter (fun c => specLevelMatch c.name)) init := by
  induction campaigns generalizing init with
  | nil => rfl
  | cons c rest ih =>
    rw [List.filter_cons]
    by_cases hs : specLevelMatch c.name
    · rw [if_pos hs]
      cases hp : parseLevelCode c.name with
      | none => simp only [summaryFold, List.foldl_cons, hp]; exact ih init
      | some lv => simp only [summaryFold, List.foldl_cons, hp]; exact ih _
    · rw [if_neg hs]
      have hpn : parseLevelCode c.name = none :=
        specLevelMatch_false_parseLevelCode (by simpa using hs)
      simp only [summaryFold, List.foldl_cons, hpn]
      exact ih init

/-- C8: a campaign whose name does not carry the case-sensitive,
end-anchored _level-N suffix (N in 1..6) is skipped by the summary
writer, which continues with the remaining campaigns unchanged; and the
whole summary is determined by the suffix-matching campaigns alone, so
only matching campaigns contribute a level-keyed entry and a
non-matching name never aborts the run. -/
theorem summary_skips_nonmatching (c : SummaryCampaignInput)
    (rest : List SummaryCampaignInput) (init : List (String × SummaryEntry))
    (h : specLevelMatch c.name = false) :
    summaryFold (c :: rest) init = summaryFold rest init ∧
    ∀ campaigns : List SummaryCampaignInput, ∀ start : List (String × SummaryEntry),
      summaryFold campaigns start =
        summaryFold (campaigns.filter (fun x => specLevelMatch x.name)) start := by
  constructor
  · have hpn : parseLevelCode c.name = none := specLevelMatch_false_parseLevelCode h
    simp only [summaryFold, List.foldl_cons, hpn]
  · intro campaigns start
    exact summaryFold_filter campaigns start

end GophishTools

namespace GophishTools

/-- A campaign name without the level suffix. -/
def cC8bad : SummaryCampaignInput :=
  ⟨"RVXXX1-C1", "Subject", "sender@bad.domain", "2020-01-01T00:00:00",
    "2020-01-02T00:00:00", "http://bad.domain", [], 0⟩

/-- A campaign name with the level-2 suffix. -/
def cC8good : SummaryCampaignInput :=
  ⟨"RVXXX1-C2_level-2", "Subject", "sender@bad.domain", "2020-01-01T00:00:00",
    "2020-01-02T00:00:00", "http://bad.domain", [], 0⟩

/-- Witness for C8 at concrete inputs. -/
theorem summary_skips_nonmatching_witness :
    specLevelMatch cC8bad.name = false ∧
    (summaryFold (cC8bad :: [cC8good]) [] = summaryFold [cC8good] [] ∧
      ∀ campaigns : List SummaryCampaignInput, ∀ start : List (String × SummaryEntry),
        summaryFold campaigns start =
          summaryFold (campaigns.filter (fun x => specLevelMatch x.name)) start) :=
  ⟨by decide, summary_skips_nonmatching cC8bad [cC8good] [] (by decide)⟩

end GophishTools

namespace GophishTools

/-- Zero-padded decimal rendering of a field. -/
def padZeros (w n : Nat) : String :=
  String.mk (List.replicate (w - (toString n).length) '0') ++ toString n

/-- datetime.strftime with format %Y-%m-%dT%H:%M:%S. -/
def formatDT (d : DT) : String :=
  padZeros 4 d.year ++ "-" ++ padZeros 2 d.month ++ "-" ++ padZeros 2 d.day ++ "T" ++
  padZeros 2 d.hour ++ ":" ++ padZeros 2 d.minute ++ ":" ++ padZeros 2 d.second

/-- The running-minimum update of export_user_reports: replace the
current first report when it is still unset or the click time is
strictly earlier. -/
def minStepDT (acc : Option DT) (t : DT) : Option DT :=
  match acc with
  | none => some t
  | some m => if dtKey t < dtKey m then some t else some m

/-- The click loop of export_user_reports: parse each click time
truncated to whole seconds (ValueError on a non-matching string) and
keep the earliest value seen. -/
def firstReportScan : List ClickOut → Option DT → Except String (Option DT)
  | [], acc => .ok acc
  | c :: cs, acc =>
    match parseDT (truncSeconds c.time) with
    | none => .error "ValueError"
    | some t => firstReportScan cs (minStepDT acc t)

/-- The first_report field of the user_report_doc built by
export_user_reports: the formatted earliest click time, or the sentinel
string when the campaign has no clicks. -/
def first_report (clicks : List ClickOut) : Except String String :=
  match firstReportScan clicks none with
  | .error e => .error e
  | .ok none => .ok "No clicks reported"
  | .ok (some d) => .ok (formatDT d)

lemma minStepDT_foldl (ts : List DT) (m : DT) :
    ∃ r, ts.foldl minStepDT (some m) = some r ∧ (r = m ∨ r ∈ ts) ∧
      dtKey r ≤ dtKey m ∧ ∀ t ∈ ts, dtKey r ≤ dtKey t := by
  induction ts generalizing m with
  | nil => exact ⟨m, rfl, Or.inl rfl, le_refl _, by simp⟩
  | cons t ts ih =>
    by_cases h : dtKey t < dtKey m
    · obtain ⟨r, hr, hmem, hle, hlb⟩ := ih t
      refine ⟨r, ?_, ?_, ?_, ?_⟩
      · rw [List.foldl_cons]
        have hstep : minStepDT (some m) t = some t := by simp [minStepDT, h]
        rw [hstep]
        exact hr
      · rcases hmem with h1 | h1
        · exact Or.inr (by simp [h1])
        · exact Or.inr (by simp [h1])
      · exact le_trans hle (le_of_lt h)
      · intro u hu
        rcases List.mem_cons.mp hu with h1 | h1
        · rw [h1]
          exact hle
        · exact hlb u h1
    · obtain ⟨r, hr, hmem, hle, hlb⟩ := ih m
      refine ⟨r, ?_, ?_, ?_, ?_⟩
      · rw [List.foldl_cons]
        have hstep : minStepDT (some m) t = some m := by simp [minStepDT, h]
        rw [hstep]
        exact hr
      · rcases hmem with h1 | h1
        · exact Or.inl h1
        · exact Or.inr (by simp [h1])
      · exact hle
      · intro u hu
        rcases List.mem_cons.mp hu with h1 | h1
        · rw [h1]
          exact le_trans hle (not_lt.mp h)
        · exact hlb u h1

lemma firstReportScan_ok (clicks : List ClickOut) (acc : Option DT)
    (h : ∀ c ∈ clicks, (parseDT (truncSeconds c.time)).isSome) :
    firstReportScan clicks acc =
      .ok ((clicks.filterMap (fun c => parseDT (truncSeconds c.time))).foldl minStepDT acc) := by
  induction clicks generalizing acc with
  | nil => rfl
  | cons c cs ih =>
    obtain ⟨t, ht⟩ := Option.isSome_iff_exists.mp (h c (by simp))
    simp only [firstReportScan, ht, List.filterMap_cons, List.foldl_cons]
    exact ih (minStepDT acc t) (fun x hx => h x (List.mem_cons_of_mem _ hx))

/-- C9: for a campaign whose click times (truncated to whole seconds)
all parse, the first-report value of the user-report artifact is the
formatted minimum among the parsed truncated click timestamps; for a
campaign with zero click events it is the sentinel string
"No clicks reported" and no error occurs. -/
theorem first_report_minimum (clicks : List ClickOut)
    (h : ∀ c ∈ clicks, (parseDT (truncSeconds c.time)).isSome) :
    (clicks = [] → first_report clicks = .ok "No clicks reported") ∧
    (clicks ≠ [] → ∃ d : DT,
      first_report clicks = .ok (formatDT d) ∧
      d ∈ clicks.filterMap (fun c => parseDT (truncSeconds c.time)) ∧
      ∀ t ∈ clicks.filterMap (fun c => parseDT (truncSeconds c.time)),
        dtKey d ≤ dtKey t) := by
  constructor
  · intro he
    rw [he]
    rfl
  · intro hne
    obtain ⟨c, cs, rfl⟩ := List.exists_cons_of_ne_nil hne
    obtain ⟨t, ht⟩ := Option.isSome_iff_exists.mp (h c (by simp))
    have hscan := firstReportScan_ok (c :: cs) none h
    simp only [List.filterMap_cons, ht, List.foldl_cons] at hscan
    obtain ⟨r, hr, hmem, hle, hlb⟩ :=
      minStepDT_foldl (cs.filterMap (fun x => parseDT (truncSeconds x.time))) t
    have hfold : (cs.filterMap (fun x => parseDT (truncSeconds x.time))).foldl
        minStepDT (minStepDT none t) = some r := by
      have hstep : minStepDT none t = some t := rfl
      rw [hstep]
      exact hr
    refine ⟨r, ?_, ?_, ?_⟩
    · rw [first_report, hscan, hfold]
    · simp only [List.filterMap_cons, ht, List.mem_cons]
      rcases hmem with h1 | h1
      · exact Or.inl h1
      · exact Or.inr h1
    · intro u hu
      simp only [List.filterMap_cons, ht, List.mem_cons] at hu
      rcases hu with h1 | h1
      · rw [h1]
        exact hle
      · exact hlb u h1

end GophishTools

namespace GophishTools

/-- Two clicks, the second earlier once truncated to whole seconds. -/
def clicksC9 : List ClickOut :=
  [⟨"u1", "198.51.100.1", "2021-03-04T05:06:07.123", []⟩,
   ⟨"u2", "198.51.100.2", "2021-03-04T05:06:06", []⟩]

/-- Witness for C9 at concrete inputs. -/
theorem first_report_minimum_witness :
    (∀ c ∈ clicksC9, (parseDT (truncSeconds c.time)).isSome) ∧
    ((clicksC9 = [] → first_report clicksC9 = .ok "No clicks reported") ∧
      (clicksC9 ≠ [] → ∃ d : DT,
        first_report clicksC9 = .ok (formatDT d) ∧
        d ∈ clicksC9.filterMap (fun c => parseDT (truncSeconds c.time)) ∧
        ∀ t ∈ clicksC9.filterMap (fun c => parseDT (truncSeconds c.time)),
          dtKey d ≤ dtKey t)) :=
  ⟨by decide, first_report_minimum clicksC9 (by decide)⟩

/-- Python str.split on a dash: the maximal dash-free chunks, including
empty chunks between adjacent dashes and at either end. -/
def splitDash : List Char → List (List Char)
  | [] => [[]]
  | c :: cs =>
    if c = '-' then [] :: splitDash cs
    else
      match splitDash cs with
      | t :: ts => (c :: t) :: ts
      | [] => [[c]]

lemma splitDash_ne_nil (l : List Char) : splitDash l ≠ [] := by
  cases l with
  | nil => simp [splitDash]
  | cons c cs =>
    simp only [splitDash]
    by_cases h : c = '-'
    · simp [h]
    · rw [if_neg h]
      cases hs : splitDash cs with
      | nil => simp
      | cons t ts => simp

lemma splitDash_length (l : List Char) :
    (splitDash l).length = l.count '-' + 1 := by
  induction l with
  | nil => simp [splitDash]
  | cons c cs ih =>
    by_cases h : c = '-'
    · simp [splitDash, h, List.count_cons, ih]
    · simp only [splitDash, if_neg h]
      cases hs : splitDash cs with
      | nil => exact absurd hs (splitDash_ne_nil cs)
      | cons t ts =>
        rw [hs] at ih
        have hc : ¬('-' = c) := fun hcc => h hcc.symm
        simp [List.count_cons, h, hc, ih.symm, hs]

/-- The template field computed by get_campaign_data: element 2 of the
remote template name split on dashes; none models the IndexError Python
raises when the split has fewer than three elements. -/
def templateThirdToken (name : String) : Option String :=
  ((splitDash name.data)[2]?).map String.mk

/-- The campaign metadata read by get_campaign_data from the remote
campaign object and its referenced template. -/
structure RawCampaignMeta where
  name : String
  launch_date : String
  completed_date : String
  url : String
  subject : String
  templateName : String
deriving DecidableEq, Repr

/-- The campaign dict built by get_campaign_data (the click and status
lists are produced by the separately embedded get_click_data and
get_email_status). -/
structure CampaignOut where
  id : String
  start_time : String
  end_time : String
  url : String
  subject : String
  template : String
deriving DecidableEq, Repr

/-- get_campaign_data of gophish_export.py, metadata part: the template
entry is the third dash-separated token of the remote template name; an
IndexError escapes when that name has fewer than two dashes. -/
def get_campaign_data (m : RawCampaignMeta) : Except String CampaignOut :=
  match templateThirdToken m.templateName with
  | some tok => .ok ⟨m.name, m.launch_date, m.completed_date, m.url, m.subject, tok⟩
  | none => .error "IndexError: list index out of range"

/-- C10: the exported template field is the third dash-separated token
of the remote template name, so get_campaign_data succeeds exactly when
that name contains at least two dash characters; with fewer it raises an
index-out-of-range error. -/
theorem template_field_requires_two_hyphens (m : RawCampaignMeta) :
    (2 ≤ m.templateName.data.count '-' →
      ∃ out : CampaignOut, get_campaign_data m = .ok out ∧
        some out.template = ((splitDash m.templateName.data)[2]?).map String.mk) ∧
    (m.templateName.data.count '-' < 2 →
      get_campaign_data m = .error "IndexError: list index out of range") := by
  constructor
  · intro h
    have hlen : 2 < (splitDash m.templateName.data).length := by
      rw [splitDash_length]
      omega
    have ht : (splitDash m.templateName.data)[2]? =
        some ((splitDash m.templateName.data).get ⟨2, hlen⟩) :=
      List.getElem?_eq_getElem hlen
    refine ⟨⟨m.name, m.launch_date, m.completed_date, m.url, m.subject,
      String.mk ((splitDash m.templateName.data).get ⟨2, hlen⟩)⟩, ?_, ?_⟩
    · unfold get_campaign_data templateThirdToken
      rw [ht]
      rfl
    · rw [ht]
      rfl
  · intro h
    have hlen : (splitDash m.templateName.data).length ≤ 2 := by
      rw [splitDash_length]
      omega
    have ht : (splitDash m.templateName.data)[2]? = none := by
      rw [List.getElem?_eq_none_iff]
      exact hlen
    unfold get_campaign_data templateThirdToken
    rw [ht]
    rfl

/-- A remote template name with exactly two dashes. -/
def mC10 : RawCampaignMeta :=
  ⟨"RVXXX1-C1_level-1", "2020-01-01T00:00:00", "2020-01-02T00:00:00",
    "http://bad.domain", "Subject", "RVXXX1-1-Phish"⟩

/-- A remote template name with fewer than two dashes. -/
def mC10bad : RawCampaignMeta :=
  ⟨"RVXXX1-C1_level-1", "2020-01-01T00:00:00", "2020-01-02T00:00:00",
    "http://bad.domain", "Subject", "PhishTemplate"⟩

/-- Witness for C10 at concrete inputs, exercising both the success and
the index-error side. -/
theorem template_field_requires_two_hyphens_witness :
    (2 ≤ mC10.templateName.data.count '-' ∧
      ∃ out : CampaignOut, get_campaign_data mC10 = .ok out ∧
        some out.template = ((splitDash mC10.templateName.data)[2]?).map String.mk) ∧
    (mC10bad.templateName.data.count '-' < 2 ∧
      get_campaign_data mC10bad = .error "IndexError: list index out of range") :=
  ⟨⟨by decide, (template_field_requires_two_hyphens mC10).1 (by decide)⟩,
   ⟨by decide, (template_field_requires_two_hyphens mC10bad).2 (by decide)⟩⟩

end GophishTools
